import Mathlib

/-!
# Verification of the workers-hmd release orchestration engine

Shallow embedding of the core server components of the workers-hmd
repository (progressive, health-gated rollout of Workers versions):

* `SLOEvaluator` (src/server/sloEvaluator.ts, first part): pure evaluation of
  latency SLO configurations against observed percentile metrics.
* `PlanStorage` (src/server/plan.ts) and the `PUT /api/plan` endpoint.
* `StageStorage` (src/server/stage.ts, first part): the per-stage durable
  record and its state machine.
* `ReleaseHistory` (src/server/stage.ts, second part): the bounded release
  ledger and the release state machine.
* `ReleaseWorkflow` (src/server/sloEvaluator.ts, second part): the soak loop,
  SLO-violation handling and external-cancellation handling, modelled as pure
  transformers of a `SystemState` (ledger plus stage records).
* The HTTP handlers `POST /api/release/create` and `DELETE /api/release/active`
  from the API router.

JavaScript `number` millisecond and percent values are modelled as `Int`
(the repository and its UI only produce integer values there, and integer
comparison and subtraction are exact in IEEE doubles); the plan's fractional
`polling_fraction` is modelled as `ℚ`.  ISO-8601 timestamp strings become
`Option Int` (milliseconds since epoch; the empty string - falsy in JS - is
`none`), and JS `Math.floor` on integer quotients as `Nat`/`Int` floor
division.  External effects (Cloudflare deployment API calls, console
logging, alarms) have no bearing on the persisted state the claims are about
and are not part of the state model.
-/

/-! ## SLOEvaluator (src/server/sloEvaluator.ts) -/

/-- The latency percentile names admitted by `SLOConfig.percentile`. -/
inductive Percentile
  | p999
  | p99
  | p90
  | median
  deriving DecidableEq, Repr

/-- `SLOConfig` from sloEvaluator.ts: one latency ceiling. -/
structure SLOConfig where
  percentile : Percentile
  latency_ms : Int
  deriving DecidableEq, Repr

/-- `ObservabilityMetrics` from sloEvaluator.ts: the observed latency tuple. -/
structure ObservabilityMetrics where
  p999 : Int
  p99 : Int
  p90 : Int
  median : Int
  deriving DecidableEq, Repr

/-- `SLOViolation` from sloEvaluator.ts. -/
structure SLOViolation where
  percentile : Percentile
  expected_max_ms : Int
  actual_ms : Int
  violation_margin_ms : Int
  deriving DecidableEq, Repr

/-- `SLOEvaluationResult` from sloEvaluator.ts.  The human-readable `summary`
string is display-only and carries no information beyond `violations`; it is
not modelled. -/
structure SLOEvaluationResult where
  passed : Bool
  violations : List SLOViolation
  deriving DecidableEq, Repr

/-- `SLOEvaluator.getMetricValue`: projection of the metric named by a
percentile. -/
def getMetricValue (metrics : ObservabilityMetrics) : Percentile → Int
  | .p999 => metrics.p999
  | .p99 => metrics.p99
  | .p90 => metrics.p90
  | .median => metrics.median

/-- The violation record pushed by `evaluateSLOs` for a single violated
configuration. -/
def mkViolation (metrics : ObservabilityMetrics) (slo : SLOConfig) : SLOViolation :=
  { percentile := slo.percentile
    expected_max_ms := slo.latency_ms
    actual_ms := getMetricValue metrics slo.percentile
    violation_margin_ms := getMetricValue metrics slo.percentile - slo.latency_ms }

/-- `SLOEvaluator.evaluateSLOs`: the source's for-loop that conditionally
pushes a violation per configuration is rendered as `List.filterMap`;
`passed` is `violations.length === 0`. -/
def evaluateSLOs (sloConfigs : List SLOConfig) (metrics : ObservabilityMetrics) :
    SLOEvaluationResult :=
  let violations := sloConfigs.filterMap fun slo =>
    if getMetricValue metrics slo.percentile > slo.latency_ms then
      some (mkViolation metrics slo)
    else
      none
  { passed := violations.length == 0
    violations := violations }

/-- `SLOEvaluator.parseSLOsFromPlan`, restricted to inputs that already have
the typed shape (the embedding types `Plan.slos` as `List SLOConfig`, so the
shape and percentile-name checks of the source always succeed): what remains
is the source's truthiness plus `latency_ms > 0` filter. -/
def parseSLOsFromPlan (slos : List SLOConfig) : List SLOConfig :=
  slos.filter fun slo => slo.latency_ms > 0

/-! ## Plan (src/server/plan.ts) -/

/-- `PlanStage` from the API schema: one stage template of the plan. -/
structure PlanStage where
  order : Nat
  description : String
  target_percent : Int
  soak_time : Nat
  auto_progress : Bool
  deriving DecidableEq, Repr

/-- `Plan` from the API schema. -/
structure Plan where
  stages : List PlanStage
  slos : List SLOConfig
  worker_name : String
  polling_fraction : ℚ
  time_last_saved : Option Int := none
  deriving DecidableEq, Repr

/-- `PlanStorage.updatePlan`: replace the stored plan wholesale, stamping
`time_last_saved`. -/
def PlanStorage.updatePlan (plan : Plan) (now : Int) : Plan :=
  { plan with time_last_saved := some now }

/-- The `PUT /api/plan` handler (index API router).  Its validator rejects a
falsy `connectionId` and a body without `plan.stages`/`plan.slos` arrays
(modelled as `plan = none`); it performs no further validation, and the
handler stores the plan verbatim.  Returns the HTTP status and the stored
plan after the request. -/
def putPlanEndpoint (connectionId : String) (plan : Option Plan)
    (stored : Option Plan) (now : Int) : Nat × Option Plan :=
  if connectionId = "" then
    (400, stored)
  else
    match plan with
    | none => (400, stored)
    | some p => (200, some (PlanStorage.updatePlan p now))

/-- Whether a list of percentages is strictly increasing. -/
def strictlyIncreasing : List Int → Bool
  | [] => true
  | [_] => true
  | a :: b :: rest => decide (a < b) && strictlyIncreasing (b :: rest)

/-- Follows the spec's words (§3, Plan invariant), for comparison with the
implementation: `target_percent` strictly increasing across stages and the
last stage's `target_percent` equal to 100. -/
def specPlanValid (p : Plan) : Bool :=
  strictlyIncreasing (p.stages.map (·.target_percent)) &&
    decide ((p.stages.getLast?).map (·.target_percent) = some 100)

/-! ## StageStorage (src/server/stage.ts, first class)

One `StageStorage` durable object owns at most one `ReleaseStage` record,
stored under the key `"main"`.  Its storage is modelled as `Option Stage`
(`none` = never initialized).  Mutating methods return the value the source
method returns together with the storage contents afterwards. -/

/-- The `ReleaseStage.state` union from the API schema. -/
inductive StageState
  | queued
  | running
  | awaiting_approval
  | done_successful
  | done_failed
  | done_cancelled
  deriving DecidableEq, Repr

/-- `state.startsWith("done_")` on a stage state. -/
def StageState.isDone : StageState → Bool
  | .done_successful => true
  | .done_failed => true
  | .done_cancelled => true
  | _ => false

/-- The `ReleaseStage` record from the API schema.  Timestamps are epoch
milliseconds; the source's empty-string sentinel for an unset time is
`none`. -/
structure Stage where
  id : String
  order : Nat
  releaseId : String
  state : StageState
  time_started : Option Int
  time_elapsed : Int
  time_done : Option Int
  logs : String
  deriving DecidableEq, Repr

/-- `calculateElapsedTime`: whole seconds between two epoch-millisecond
instants, `Math.floor((end - start) / 1000)`. -/
def calculateElapsedTime (startTime endTime : Int) : Int :=
  (endTime - startTime).fdiv 1000

/-- `StageStorage.handleStateTransition`: stamps `time_started` when entering
`running` from `queued`, and stamps `time_done`/`time_elapsed` when entering
`done_failed` or `done_successful` from `running` or `awaiting_approval`.
(The alarm it arms/clears only refreshes the elapsed-time display and is not
modelled.) -/
def stageHandleStateTransition (stage : Stage) (newState : StageState) (now : Int) : Stage :=
  let u1 : Stage := { stage with state := newState }
  let u2 : Stage :=
    if newState = .running ∧ stage.state = .queued then
      { u1 with time_started := some now, time_elapsed := 0 }
    else u1
  if (newState = .done_failed ∨ newState = .done_successful) ∧
      (stage.state = .running ∨ stage.state = .awaiting_approval) then
    let u3 : Stage := { u2 with time_done := some now }
    match stage.time_started with
    | some ts => { u3 with time_elapsed := calculateElapsedTime ts now }
    | none => u3
  else u2

/-- `StageStorage.updateStageState`.  Returns `null` without touching storage
when no stage record exists; otherwise applies the state transition and
replaces `logs` when the `logs` argument is truthy (`logs || stage.logs`).
The source also fires an un-awaited `addLog` with a decorative transition
message; that write races with (and, in program order, is overwritten by) the
final `save(updatedStage)` and is not modelled - no claim concerns the
decorative log lines. -/
def updateStageState (storage : Option Stage) (newState : StageState)
    (logs : Option String) (now : Int) : Option Stage × Option Stage :=
  match storage with
  | none => (none, none)
  | some stage =>
    let u1 := stageHandleStateTransition stage newState now
    let u2 : Stage :=
      { u1 with
        logs :=
          match logs with
          | some l => if l = "" then stage.logs else l
          | none => stage.logs }
    (some u2, some u2)

/-- A `Partial<Stage>` argument of `StageStorage.updateStage`, restricted to
the fields actually passed by callers in the repository (`addLog` passes only
`logs`). -/
structure StageUpdates where
  state : Option StageState := none
  logs : Option String := none
  deriving DecidableEq, Repr

/-- The spread `{ ...stage, ...updates }`. -/
def applyStageUpdates (stage : Stage) (updates : StageUpdates) : Stage :=
  { stage with
    state := updates.state.getD stage.state
    logs := updates.logs.getD stage.logs }

/-- `StageStorage.updateStage`: partial update; runs the state transition when
the update changes the state, then re-applies the updates on top. -/
def updateStage (storage : Option Stage) (updates : StageUpdates) (now : Int) :
    Option Stage × Option Stage :=
  match storage with
  | none => (none, none)
  | some stage =>
    let previousState := stage.state
    let partiallyUpdated := applyStageUpdates stage updates
    let newState := partiallyUpdated.state
    let updatedStage :=
      if previousState ≠ newState then
        stageHandleStateTransition stage newState now
      else
        partiallyUpdated
    let finalStage := applyStageUpdates updatedStage updates
    (some finalStage, some finalStage)

/-- The `\n[timestamp] message` log entry format used by `StageStorage`. -/
def logEntry (now : Int) (message : String) : String :=
  "\n[" ++ toString now ++ "] " ++ message

/-- `StageStorage.addLog`: append one timestamped line to `logs` via
`updateStage`; `null` when the stage record does not exist. -/
def addLog (storage : Option Stage) (message : String) (now : Int) :
    Option Stage × Option Stage :=
  match storage with
  | none => (none, none)
  | some stage =>
    updateStage (some stage) { logs := some (stage.logs ++ logEntry now message) } now

/-- The `"approve" | "deny"` command of `StageStorage.progressStage`. -/
inductive ProgressCommand
  | approve
  | deny
  deriving DecidableEq, Repr

/-- `StageStorage.progressStage`: resolve the approval gate; `null` when the
stage record does not exist. -/
def progressStage (storage : Option Stage) (command : ProgressCommand) (now : Int) :
    Option Stage × Option Stage :=
  match storage with
  | none => (none, none)
  | some stage =>
    let newState : StageState :=
      match command with
      | .approve => .done_successful
      | .deny => .done_cancelled
    let message :=
      match command with
      | .approve => "Stage approved."
      | .deny => "Stage not approved. Cancelling release..."
    updateStageState (some stage) newState (some (stage.logs ++ logEntry now message)) now

/-! ## ReleaseHistory (src/server/stage.ts, second class)

The ledger durable object stores `{ releases: Release[] }` under the key
`"history"`; it is modelled as a `List Release`, most recent first. -/

/-- The `Release.state` union from the API schema. -/
inductive ReleaseState
  | not_started
  | running
  | done_successful
  | done_stopped_manually
  | done_failed_slo
  | error
  deriving DecidableEq, Repr

/-- `state.startsWith("done_")` on a release state.  Note `error` does not
match the prefix. -/
def ReleaseState.isDone : ReleaseState → Bool
  | .done_successful => true
  | .done_stopped_manually => true
  | .done_failed_slo => true
  | _ => false

/-- The active-release predicate (`not_started` or `running`). -/
def ReleaseState.isActive : ReleaseState → Bool
  | .not_started => true
  | .running => true
  | _ => false

/-- A `StageRef` from the API schema (`Release.stages` entries). -/
structure StageRef where
  id : String
  order : Nat
  deriving DecidableEq, Repr

/-- The `Release` record from the API schema. -/
structure Release where
  id : String
  state : ReleaseState
  plan_record : Plan
  old_version : String
  new_version : String
  stages : List StageRef
  time_created : Int
  time_started : Option Int
  time_elapsed : Int
  time_done : Option Int
  deriving DecidableEq, Repr

/-- `ReleaseHistory.handleStateTransition`: entering `running` stamps
`time_started` and resets elapsed; leaving `running` for a `done_*` state
stamps `time_done` (if not already set) and recomputes `time_elapsed`; the
requested state is then applied unconditionally. -/
def releaseHandleStateTransition (release : Release)
    (previousState newState : ReleaseState) (now : Int) : Release :=
  let r1 : Release :=
    if previousState ≠ .running ∧ newState = .running then
      { release with time_started := some now, time_elapsed := 0 }
    else release
  let r2 : Release :=
    if previousState = .running ∧ newState.isDone then
      let timeDone := r1.time_done.getD now
      let r := { r1 with time_done := some timeDone }
      match r.time_started with
      | some ts => { r with time_elapsed := calculateElapsedTime ts timeDone }
      | none => r
    else r1
  { r2 with state := newState }

/-- `ReleaseHistory.trimReleaseHistory`: cap the ledger at 100 entries. -/
def trimReleaseHistory (releases : List Release) : List Release :=
  if releases.length > 100 then releases.take 100 else releases

/-- `ReleaseHistory.createRelease`: unshift the new release, then trim. -/
def ReleaseHistory.createRelease (history : List Release) (release : Release) :
    List Release :=
  trimReleaseHistory (release :: history)

/-- `ReleaseHistory.getRelease`: first entry with the given id. -/
def getRelease (history : List Release) (id : String) : Option Release :=
  history.find? fun r => r.id = id

/-- `ReleaseHistory.updateReleaseState`: `findIndex` on the id and replace the
entry at that index with the transitioned release (rendered as structural
recursion replacing the first match); `false` leaving the ledger unchanged
when the id is unknown. -/
def updateReleaseState (history : List Release) (id : String)
    (state : ReleaseState) (now : Int) : Bool × List Release :=
  match history with
  | [] => (false, [])
  | r :: rest =>
    if r.id = id then
      (true, releaseHandleStateTransition r r.state state now :: rest)
    else
      let res := updateReleaseState rest id state now
      (res.1, r :: res.2)

/-- `ReleaseHistory.getActiveRelease`: first entry in `not_started` or
`running`. -/
def getActiveRelease (history : List Release) : Option Release :=
  history.find? fun r => r.state = .not_started ∨ r.state = .running

/-- `ReleaseHistory.hasActiveRelease`. -/
def hasActiveRelease (history : List Release) : Bool :=
  (getActiveRelease history).isSome

/-- `ReleaseHistory.removeRelease`: filter out every entry with the given id;
report whether the ledger shrank (the storage write only happens in that
case, but either way the resulting contents are the filtered list). -/
def removeRelease (history : List Release) (id : String) : Bool × List Release :=
  let filtered := history.filter fun r => r.id ≠ id
  if filtered.length < history.length then (true, filtered) else (false, history)

/-! ## ReleaseWorkflow (src/server/sloEvaluator.ts, second part)

The workflow mutates the release ledger and the stage durable objects.  The
combined persisted state is a `SystemState`: the ledger plus the map from
stage-object name to stage record (an association list keyed by the durable
object id string).  Deployment-API calls (`setDeploymentTarget`,
`revertDeployment`, `finishDeployment`) and console logs are external side
effects outside this state. -/

/-- The durable-object name for a stage:
`release-(releaseId)-order-(order)` (`getStageId` in the API router /
`ReleaseWorkflow.getStageStorage`). -/
def mkStageId (releaseId : String) (order : Nat) : String :=
  "release-" ++ releaseId ++ "-order-" ++ toString order

/-- The persisted state the workflow acts on. -/
structure SystemState where
  history : List Release
  stages : List (String × Stage)
  deriving DecidableEq, Repr

/-- Contents of the stage durable object named `id` (`stage.get()`). -/
def getStageData (sys : SystemState) (id : String) : Option Stage :=
  (sys.stages.find? fun p => p.1 = id).map (·.2)

/-- Overwrite the record of the stage object named `id` (`stage.save`). -/
def setStageData (sys : SystemState) (id : String) (st : Stage) : SystemState :=
  { sys with stages := sys.stages.map fun p => if p.1 = id then (p.1, st) else p }

/-- `stage.updateStageState(state)` on the stage object named `id`, lifted to
the system state (no record, no write). -/
def sysUpdateStageState (sys : SystemState) (id : String) (newState : StageState)
    (logs : Option String) (now : Int) : SystemState :=
  match (updateStageState (getStageData sys id) newState logs now).2 with
  | some st => setStageData sys id st
  | none => sys

/-- `stage.addLog(message)` on the stage object named `id`, lifted to the
system state. -/
def sysAddLog (sys : SystemState) (id : String) (message : String) (now : Int) :
    SystemState :=
  match (addLog (getStageData sys id) message now).2 with
  | some st => setStageData sys id st
  | none => sys

/-- One iteration of the `updateStagesStateBad` loop: resolve the stage
object by release id and order, and if a record exists and
(`!excludeCompleted || !state.startsWith("done_")`) apply the state. -/
def updateStageBadStep (releaseId : String) (state : StageState)
    (excludeCompleted : Bool) (now : Int) (acc : SystemState)
    (planStage : PlanStage) : SystemState :=
  let stageId := mkStageId releaseId planStage.order
  match getStageData acc stageId with
  | none => acc
  | some currentStageData =>
    if !excludeCompleted || !currentStageData.state.isDone then
      sysUpdateStageState acc stageId state none now
    else
      acc

/-- `ReleaseWorkflow.updateStagesStateBad`: the for-loop over the given plan
stages. -/
def updateStagesStateBad (sys : SystemState) (releaseId : String)
    (stages : List PlanStage) (state : StageState) (excludeCompleted : Bool)
    (now : Int) : SystemState :=
  stages.foldl (updateStageBadStep releaseId state excludeCompleted now) sys

/-- `ReleaseWorkflow.handleSLOViolation`: mark the current stage
`done_failed`, cascade `done_cancelled` to the not-yet-terminal plan stages of
strictly greater order, and set the release `done_failed_slo`. -/
def handleSLOViolation (sys : SystemState) (releaseId : String)
    (currentStageOrder : Nat) (currentStageId : String) (now : Int) : SystemState :=
  match getRelease sys.history releaseId with
  | none => sys
  | some release =>
    let sys1 := sysUpdateStageState sys currentStageId .done_failed none now
    let remainingStages :=
      release.plan_record.stages.filter fun s => s.order > currentStageOrder
    let sys2 := updateStagesStateBad sys1 releaseId remainingStages .done_cancelled true now
    { sys2 with history := (updateReleaseState sys2.history releaseId .done_failed_slo now).2 }

/-- `ReleaseWorkflow.handleExternalCancellation`: cascade `done_cancelled` to
the not-yet-terminal plan stages of order ≥ the current one and set the
release `done_stopped_manually` (the deployment revert is an external side
effect). -/
def handleExternalCancellation (sys : SystemState) (releaseId : String)
    (currentStageOrder : Nat) (now : Int) : SystemState :=
  match getRelease sys.history releaseId with
  | none => sys
  | some release =>
    let remainingStages :=
      release.plan_record.stages.filter fun s => s.order ≥ currentStageOrder
    let sys1 := updateStagesStateBad sys releaseId remainingStages .done_cancelled true now
    { sys1 with history := (updateReleaseState sys1.history releaseId .done_stopped_manually now).2 }

/-- The effective polling fraction,
`release?.plan_record?.polling_fraction || 0.5` (a zero - falsy - fraction,
or a missing release, falls back to 0.5). -/
def effPollingFraction : Option Release → ℚ
  | some r => if r.plan_record.polling_fraction = 0 then 1 / 2 else r.plan_record.polling_fraction
  | none => 1 / 2

/-- `intervalTimeSeconds` of `processStageSoak`:
`Math.max(1, Math.floor(soak_time * pollingFraction))`.  The floor of
`soakTime * f` is computed on the fraction's reduced numerator and
denominator so that the definition evaluates by kernel reduction;
`pollingInterval_eq_floor` below proves it equal to the floor formula. -/
def pollingInterval (soakTime : Nat) (f : ℚ) : Nat :=
  max 1 (Int.toNat ((soakTime * f.num) / (f.den : Int)))

/-- Result of a soak: `continue` to the approval gate, or `exit` the
workflow. -/
inductive SoakResult
  | go
  | exit
  deriving DecidableEq, Repr

/-- The violation log line appended to the failing stage before
`handleSLOViolation` runs. -/
def violationLogMessage (violations : List SLOViolation) : String :=
  "🛑 SLO violations: " ++
    String.intercalate ", "
      (violations.map fun v =>
        toString v.actual_ms ++ "ms > " ++ toString v.expected_max_ms ++ "ms")

/-- The polling-round loop of `ReleaseWorkflow.processStageSoak`.  Each round
first re-reads the release once per second for `interval` seconds to detect
an external stop (in this sequential model the ledger cannot change between
those reads, so the per-second loop is one read); a divergence from `running`
takes the external-cancellation path.  The round then fetches telemetry for
the elapsed window (`telemetry i` for the i-th round) and, when SLO
configurations exist, evaluates them: a failure logs the violations to the
stage, runs `handleSLOViolation` and exits; a pass (or no configurations)
continues with the next round.  Returns the soak outcome, the number of
completed polling rounds, and the final state. -/
def soakLoop (releaseId stageId : String) (stageOrder : Nat)
    (sloConfigs : List SLOConfig) (telemetry : Nat → ObservabilityMetrics)
    (now : Int) : Nat → Nat → SystemState → SoakResult × Nat × SystemState
  | 0, _, sys => (.go, 0, sys)
  | n + 1, idx, sys =>
    match getRelease sys.history releaseId with
    | none => (.exit, 0, handleExternalCancellation sys "" stageOrder now)
    | some release =>
      if release.state ≠ .running then
        (.exit, 0, handleExternalCancellation sys release.id stageOrder now)
      else
        let wallTimes := telemetry idx
        if sloConfigs.length > 0 then
          let sloResult := evaluateSLOs sloConfigs wallTimes
          if !sloResult.passed then
            let sys1 := sysAddLog sys stageId (violationLogMessage sloResult.violations) now
            (.exit, 0, handleSLOViolation sys1 releaseId stageOrder stageId now)
          else
            let rec' := soakLoop releaseId stageId stageOrder sloConfigs telemetry now n (idx + 1) sys
            (rec'.1, rec'.2.1 + 1, rec'.2.2)
        else
          let rec' := soakLoop releaseId stageId stageOrder sloConfigs telemetry now n (idx + 1) sys
          (rec'.1, rec'.2.1 + 1, rec'.2.2)

/-- `ReleaseWorkflow.processStageSoak`: fetch the release once for the
polling configuration and the SLO configurations (when the release is
missing, the loop exits through the cancellation check before the
configurations are ever used, matching the source's non-null assertion), then
run `floor(soak_time / interval)` polling rounds. -/
def processStageSoak (sys : SystemState) (releaseId : String) (stageRef : StageRef)
    (stagePlan : PlanStage) (telemetry : Nat → ObservabilityMetrics) (now : Int) :
    SoakResult × Nat × SystemState :=
  let release := getRelease sys.history releaseId
  let pollingFraction := effPollingFraction release
  let intervalTimeSeconds := pollingInterval stagePlan.soak_time pollingFraction
  let sloConfigs :=
    match release with
    | some r => parseSLOsFromPlan r.plan_record.slos
    | none => []
  soakLoop releaseId stageRef.id stageRef.order sloConfigs telemetry now
    (stagePlan.soak_time / intervalTimeSeconds) 0 sys

/-! ## API router handlers (index.ts) -/

/-- The release record built by `POST /api/release/create`. -/
def mkNewRelease (plan : Plan) (releaseId oldVersion newVersion : String)
    (now : Int) : Release :=
  { id := releaseId
    state := .not_started
    plan_record := plan
    old_version := oldVersion
    new_version := newVersion
    stages := plan.stages.map fun stage => { id := mkStageId releaseId stage.order, order := stage.order }
    time_created := now
    time_started := none
    time_elapsed := 0
    time_done := none }

/-- `POST /api/release/create`: reject with 409 (Conflict) while the ledger
has an active release; otherwise snapshot the plan into a fresh `not_started`
release and add it to the ledger.  (The handler also initializes one stage
durable object per plan stage in state `queued`; the ledger is the state this
endpoint's claims are about.)  Returns the HTTP status, the created release,
and the ledger afterwards. -/
def createReleaseEndpoint (history : List Release) (plan : Plan)
    (releaseId oldVersion newVersion : String) (now : Int) :
    Nat × Option Release × List Release :=
  if hasActiveRelease history then
    (409, none, history)
  else
    let newRelease := mkNewRelease plan releaseId oldVersion newVersion now
    (200, some newRelease, ReleaseHistory.createRelease history newRelease)

/-- `DELETE /api/release/active`: 404 when no active release exists, 409
(leaving the ledger unchanged) when the active release is not `not_started`,
otherwise remove it. -/
def deleteActiveReleaseEndpoint (history : List Release) : Nat × List Release :=
  match getActiveRelease history with
  | none => (404, history)
  | some activeRelease =>
    if activeRelease.state ≠ .not_started then
      (409, history)
    else
      let res := removeRelease history activeRelease.id
      if res.1 then (200, res.2) else (404, history)

/-! ## Concrete fixtures

Small concrete instances, used to instantiate witnesses and
counterexamples.  `half` is the default `polling_fraction` 0.5, written as an
explicit reduced fraction so that it evaluates by kernel reduction. -/

/-- The rational 1/2 as an explicit reduced fraction. -/
def half : ℚ := ⟨1, 2, by decide, by decide⟩

/-- A plan like the built-in default of `PlanStorage.get`, shortened to two
stages. -/
def samplePlan : Plan :=
  { stages :=
      [{ order := 1, description := "", target_percent := 10, soak_time := 60,
         auto_progress := false },
       { order := 2, description := "", target_percent := 100, soak_time := 60,
         auto_progress := true }]
    slos := [{ percentile := .p999, latency_ms := 100 }]
    worker_name := "my-worker"
    polling_fraction := half }

/-- A fresh stage record as written by the create endpoint's `initialize`
call. -/
def sampleStage (releaseId : String) (order : Nat) (state : StageState) : Stage :=
  { id := mkStageId releaseId order
    order := order
    releaseId := releaseId
    state := state
    time_started := none
    time_elapsed := 0
    time_done := none
    logs := "" }

/-- A release over `samplePlan`. -/
def sampleRelease (id : String) (state : ReleaseState) : Release :=
  { id := id
    state := state
    plan_record := samplePlan
    old_version := "v-old"
    new_version := "v-new"
    stages := [{ id := mkStageId id 1, order := 1 }, { id := mkStageId id 2, order := 2 }]
    time_created := 0
    time_started := if state = .not_started then none else some 0
    time_elapsed := 0
    time_done := none }

/-- A running system: one running release, stage 1 running, stage 2 queued. -/
def sampleSystem : SystemState :=
  { history := [sampleRelease "aaaa1111" .running]
    stages :=
      [(mkStageId "aaaa1111" 1, sampleStage "aaaa1111" 1 .running),
       (mkStageId "aaaa1111" 2, sampleStage "aaaa1111" 2 .queued)] }

/-- Metrics with every percentile at the given value. -/
def flatMetrics (v : Int) : ObservabilityMetrics :=
  { p999 := v, p99 := v, p90 := v, median := v }

/-! ## Helper lemmas -/

theorem filterMap_ite {α β : Type} (p : α → Prop) [DecidablePred p] (g : α → β)
    (l : List α) :
    (l.filterMap fun a => if p a then some (g a) else none) =
      (l.filter fun a => decide (p a)).map g := by
  induction l with
  | nil => rfl
  | cons a t ih =>
    by_cases h : p a <;> simp [List.filterMap_cons, List.filter_cons, h, ih]

/-- The polling interval is the floor formula of the source. -/
theorem pollingInterval_eq_floor (soakTime : Nat) (f : ℚ) :
    pollingInterval soakTime f = max 1 (Int.toNat ⌊(soakTime : ℚ) * f⌋) := by
  unfold pollingInterval
  congr 2
  have h : (soakTime : ℚ) * f = ((soakTime * f.num : ℤ) : ℚ) / ((f.den : ℕ) : ℚ) := by
    conv_lhs => rw [← Rat.num_div_den f]
    push_cast
    ring
  rw [h, Rat.floor_intCast_div_natCast]

theorem createRelease_eq_take (history : List Release) (release : Release) :
    ReleaseHistory.createRelease history release = (release :: history).take 100 := by
  unfold ReleaseHistory.createRelease trimReleaseHistory
  split
  · rfl
  · next h => rw [List.take_of_length_le (by omega)]

/-! ## Claim C2: `evaluateSLOs` -/

/-- C2.  `evaluateSLOs` passes exactly when no configured percentile's
observed value strictly exceeds its `latency_ms` threshold; the violations
are precisely one `mkViolation` per violated configuration (carrying the
percentile, threshold, observed value and margin `observed - threshold`);
and concretely, threshold `p999 = 100` against observed `p999 = 150` fails
with the single violation of margin 50, while observed `p999 = 80`
passes. -/
theorem evaluateSLOs_passed_iff_and_violations (sloConfigs : List SLOConfig)
    (metrics : ObservabilityMetrics) :
    ((evaluateSLOs sloConfigs metrics).passed = true ↔
      ∀ slo ∈ sloConfigs, getMetricValue metrics slo.percentile ≤ slo.latency_ms) ∧
    (evaluateSLOs sloConfigs metrics).violations =
      (sloConfigs.filter fun slo =>
        decide (getMetricValue metrics slo.percentile > slo.latency_ms)).map
        (mkViolation metrics) ∧
    (∀ v ∈ (evaluateSLOs sloConfigs metrics).violations,
      v.violation_margin_ms = v.actual_ms - v.expected_max_ms) ∧
    (evaluateSLOs [{ percentile := .p999, latency_ms := 100 }] (flatMetrics 150)).passed
        = false ∧
    (evaluateSLOs [{ percentile := .p999, latency_ms := 100 }] (flatMetrics 150)).violations
        = [{ percentile := .p999, expected_max_ms := 100, actual_ms := 150,
             violation_margin_ms := 50 }] ∧
    (evaluateSLOs [{ percentile := .p999, latency_ms := 100 }] (flatMetrics 80)).passed
        = true := by
  have hviol : (evaluateSLOs sloConfigs metrics).violations =
      (sloConfigs.filter fun slo =>
        decide (getMetricValue metrics slo.percentile > slo.latency_ms)).map
        (mkViolation metrics) := by
    unfold evaluateSLOs
    exact filterMap_ite _ _ _
  refine ⟨?_, hviol, ?_, by decide, by decide, by decide⟩
  · unfold evaluateSLOs
    dsimp only
    rw [filterMap_ite]
    simp [List.length_eq_zero, List.filter_eq_nil_iff, not_lt]
  · intro v hv
    rw [hviol] at hv
    rcases List.mem_map.1 hv with ⟨slo, _, rfl⟩
    simp [mkViolation]

/-! ## Claim C9: `createRelease` keeps the ledger bounded -/

/-- C9.  After `createRelease`, the ledger is the new release consed onto the
old ledger truncated to 100 entries: it has at most 100 entries, the new
release is the first (most recent) entry, and any entries dropped by the cap
are the trailing - i.e. oldest - ones. -/
theorem createRelease_bounded_most_recent_first (history : List Release)
    (release : Release) :
    ReleaseHistory.createRelease history release = (release :: history).take 100 ∧
    (ReleaseHistory.createRelease history release).length ≤ 100 ∧
    (ReleaseHistory.createRelease history release).head? = some release := by
  refine ⟨createRelease_eq_take history release, ?_, ?_⟩
  · rw [createRelease_eq_take]
    simp [Nat.min_le_left 100 (release :: history).length]
  · rw [createRelease_eq_take]
    rfl

/-! ## Claim C10: mutating an uninitialized stage is a no-op -/

/-- C10.  On a `StageStorage` whose record was never initialized,
`updateStageState`, `progressStage` and `addLog` all return `null` and leave
the storage empty (no record is created). -/
theorem uninitialized_stage_mutations_are_noops :
    ∀ (newState : StageState) (logs : Option String) (message : String)
      (command : ProgressCommand) (now : Int),
      updateStageState none newState logs now = (none, none) ∧
      progressStage none command now = (none, none) ∧
      addLog none message now = (none, none) := by
  intro newState logs message command now
  exact ⟨rfl, rfl, rfl⟩

/-! ## Claim C5: server-side plan validation -/

/-- A plan whose stages are not strictly increasing in `target_percent` and
whose final stage is not at 100%. -/
def decreasingPlan : Plan :=
  { stages :=
      [{ order := 1, description := "", target_percent := 50, soak_time := 60,
         auto_progress := false },
       { order := 2, description := "", target_percent := 40, soak_time := 60,
         auto_progress := false }]
    slos := [{ percentile := .p999, latency_ms := 100 }]
    worker_name := "my-worker"
    polling_fraction := half }

/-- C5 counterexample.  `decreasingPlan` violates both plan invariants of the
spec, yet the `PUT /api/plan` pipeline accepts it (HTTP 200) and stores it
verbatim (timestamped) - it is neither rejected nor left unstored. -/
theorem putPlan_accepts_invalid_plan :
    specPlanValid decreasingPlan = false ∧
    putPlanEndpoint "conn-1" (some decreasingPlan) none 7 =
      (200, some { decreasingPlan with time_last_saved := some 7 }) := by
  constructor
  · decide
  · rfl

/-- C5 amended.  The plan-update operation performs no stage-ordering or
percentage validation on the server: for any request with a non-empty
`connectionId` and a body carrying `stages`/`slos` arrays, the submitted plan
- strictly increasing or not, final stage at 100% or not - is accepted with
HTTP 200 and stored wholesale with only `time_last_saved` changed.  (The
strict-increase check exists only in the browser UI before the request is
sent.) -/
theorem putPlan_stores_any_plan (connectionId : String) (h : connectionId ≠ "")
    (plan : Plan) (stored : Option Plan) (now : Int) :
    putPlanEndpoint connectionId (some plan) stored now =
      (200, some { plan with time_last_saved := some now }) := by
  unfold putPlanEndpoint PlanStorage.updatePlan
  rw [if_neg h]

/-- Witness for C5's amended theorem at the concrete invalid plan. -/
theorem putPlan_stores_any_plan_witness :
    ("conn-1" ≠ "") ∧
    putPlanEndpoint "conn-1" (some decreasingPlan) none 7 =
      (200, some { decreasingPlan with time_last_saved := some 7 }) :=
  ⟨by decide, putPlan_stores_any_plan "conn-1" (by decide) decreasingPlan none 7⟩

/-! ## Claim C6: completion timestamps on stage transitions -/

/-- C6 counterexample.  A stage in `awaiting_approval` with a start time,
transitioned to the terminal state `done_cancelled`: the stored record
changes state but gets no `time_done` stamp and keeps its old
`time_elapsed` - the claim's stamping behaviour does not apply to
`done_cancelled`. -/
theorem done_cancelled_does_not_stamp :
    (sampleStage "aaaa1111" 1 .awaiting_approval).time_started = none ∧
    updateStageState
        (some { sampleStage "aaaa1111" 1 .awaiting_approval with time_started := some 0 })
        .done_cancelled none 5000 =
      (some { sampleStage "aaaa1111" 1 .awaiting_approval with
              time_started := some 0
              state := .done_cancelled },
       some { sampleStage "aaaa1111" 1 .awaiting_approval with
              time_started := some 0
              state := .done_cancelled }) ∧
    ({ sampleStage "aaaa1111" 1 .awaiting_approval with
       time_started := some 0
       state := StageState.done_cancelled }).time_done = none := by
  refine ⟨rfl, ?_, rfl⟩
  rfl

/-- C6 amended.  From `running` or `awaiting_approval`, a transition into
`done_successful` or `done_failed` stamps `time_done` with the transition
time and sets `time_elapsed` to the whole seconds between `time_started` and
`time_done`; a transition into `done_cancelled` applies the state but stamps
neither field. -/
theorem stage_completion_stamps_times (stage : Stage) (ts now : Int)
    (newState : StageState)
    (hstate : stage.state = .running ∨ stage.state = .awaiting_approval)
    (hts : stage.time_started = some ts) :
    (newState = .done_successful ∨ newState = .done_failed →
      updateStageState (some stage) newState none now =
        (some { stage with state := newState
                           time_done := some now
                           time_elapsed := calculateElapsedTime ts now },
         some { stage with state := newState
                           time_done := some now
                           time_elapsed := calculateElapsedTime ts now })) ∧
    updateStageState (some stage) .done_cancelled none now =
      (some { stage with state := .done_cancelled },
       some { stage with state := .done_cancelled }) := by
  constructor
  · intro hnew
    unfold updateStageState stageHandleStateTransition
    rcases hnew with h | h <;> rcases hstate with h2 | h2 <;>
      simp [h, h2, hts]
  · unfold updateStageState stageHandleStateTransition
    rcases hstate with h2 | h2 <;> simp [h2]

/-- Witness for C6's amended theorem: stage 1 running since 0, completed
successfully at 65,500 ms, elapsed 65 whole seconds. -/
theorem stage_completion_stamps_times_witness :
    ((sampleStage "aaaa1111" 1 .running).state = .running ∨
      (sampleStage "aaaa1111" 1 .running).state = .awaiting_approval) ∧
    ({ sampleStage "aaaa1111" 1 .running with time_started := some 0 } :
        Stage).time_started = some 0 ∧
    (StageState.done_successful = .done_successful ∨
        StageState.done_successful = .done_failed) ∧
    updateStageState
        (some { sampleStage "aaaa1111" 1 .running with time_started := some 0 })
        .done_successful none 65500 =
      (some { { sampleStage "aaaa1111" 1 .running with time_started := some 0 } with
              state := .done_successful
              time_done := some 65500
              time_elapsed := calculateElapsedTime 0 65500 },
       some { { sampleStage "aaaa1111" 1 .running with time_started := some 0 } with
              state := .done_successful
              time_done := some 65500
              time_elapsed := calculateElapsedTime 0 65500 }) := by
  refine ⟨Or.inl rfl, rfl, Or.inl rfl, ?_⟩
  exact (stage_completion_stamps_times
    { sampleStage "aaaa1111" 1 .running with time_started := some 0 }
    0 65500 .done_successful (Or.inl rfl) rfl).1 (Or.inl rfl)

/-! ### Release transition lemmas -/

theorem releaseHandleStateTransition_state (r : Release) (p s : ReleaseState)
    (now : Int) : (releaseHandleStateTransition r p s now).state = s := rfl

theorem releaseHandleStateTransition_id (r : Release) (p s : ReleaseState)
    (now : Int) : (releaseHandleStateTransition r p s now).id = r.id := by
  unfold releaseHandleStateTransition
  dsimp only
  split_ifs <;> first
    | rfl
    | (cases hr : r.time_started <;> rfl)

/-- Re-applying a release's own state never changes the record. -/
theorem releaseHandleStateTransition_self (r : Release) (now : Int) :
    releaseHandleStateTransition r r.state r.state now = r := by
  unfold releaseHandleStateTransition
  have h1 : ¬(r.state ≠ ReleaseState.running ∧ r.state = ReleaseState.running) := by
    rintro ⟨a, b⟩
    exact a b
  have h2 : ¬(r.state = ReleaseState.running ∧ r.state.isDone = true) := by
    rintro ⟨a, b⟩
    rw [a] at b
    exact absurd b (by decide)
  simp only [if_neg h1, if_neg h2]

theorem updateReleaseState_not_found (history : List Release) (id : String)
    (s : ReleaseState) (now : Int) (hf : getRelease history id = none) :
    updateReleaseState history id s now = (false, history) := by
  induction history with
  | nil => rfl
  | cons a t ih =>
    unfold getRelease at hf
    rw [List.find?_cons] at hf
    by_cases ha : a.id = id
    · simp [ha] at hf
    · have hf2 : getRelease t id = none := by
        unfold getRelease
        simpa [ha] using hf
      unfold updateReleaseState
      rw [if_neg ha, ih hf2]

theorem updateReleaseState_found (history : List Release) (id : String)
    (s : ReleaseState) (now : Int) (r : Release)
    (hf : getRelease history id = some r) :
    (updateReleaseState history id s now).1 = true ∧
    getRelease (updateReleaseState history id s now).2 id =
      some (releaseHandleStateTransition r r.state s now) := by
  induction history with
  | nil => simp [getRelease] at hf
  | cons a t ih =>
    unfold getRelease at hf
    rw [List.find?_cons] at hf
    by_cases ha : a.id = id
    · have hf2 : a = r := by
        simpa [ha] using hf
      subst hf2
      unfold updateReleaseState
      rw [if_pos ha]
      refine ⟨rfl, ?_⟩
      unfold getRelease
      rw [List.find?_cons_of_pos _ (by simp [releaseHandleStateTransition_id, ha])]
    · have hf2 : getRelease t id = some r := by
        unfold getRelease
        simpa [ha] using hf
      obtain ⟨ih1, ih2⟩ := ih hf2
      unfold updateReleaseState
      rw [if_neg ha]
      refine ⟨ih1, ?_⟩
      unfold getRelease at ih2 ⊢
      rw [List.find?_cons_of_neg _ (by simp [ha])]
      exact ih2

/-- Re-applying the state a release already has leaves the ledger
unchanged. -/
theorem updateReleaseState_self (history : List Release) (id : String)
    (now : Int) (r : Release) (hf : getRelease history id = some r) :
    updateReleaseState history id r.state now = (true, history) := by
  induction history with
  | nil => simp [getRelease] at hf
  | cons a t ih =>
    unfold getRelease at hf
    rw [List.find?_cons] at hf
    by_cases ha : a.id = id
    · have hf2 : a = r := by
        simpa [ha] using hf
      subst hf2
      unfold updateReleaseState
      rw [if_pos ha, releaseHandleStateTransition_self]
    · have hf2 : getRelease t id = some r := by
        unfold getRelease
        simpa [ha] using hf
      unfold updateReleaseState
      rw [if_neg ha, ih hf2]

/-! ### Stage transition lemmas -/

theorem stageHandleStateTransition_state (stage : Stage) (newState : StageState)
    (now : Int) : (stageHandleStateTransition stage newState now).state = newState := by
  unfold stageHandleStateTransition
  dsimp only
  split_ifs <;> first
    | rfl
    | (cases hs : stage.time_started <;> rfl)

theorem updateStageState_some (stage : Stage) (newState : StageState)
    (logs : Option String) (now : Int) :
    ∃ u, updateStageState (some stage) newState logs now = (some u, some u) ∧
      u.state = newState := by
  refine ⟨_, rfl, ?_⟩
  exact stageHandleStateTransition_state stage newState now

/-- A same-state call on a stage already in a terminal state writes back the
unchanged record. -/
theorem updateStageState_self_terminal (stage : Stage) (now : Int)
    (hdone : stage.state.isDone = true) :
    updateStageState (some stage) stage.state none now = (some stage, some stage) := by
  unfold updateStageState stageHandleStateTransition
  have h1 : ¬(stage.state = StageState.running ∧ stage.state = StageState.queued) := by
    rintro ⟨a, -⟩
    rw [a] at hdone
    exact absurd hdone (by decide)
  have h2 : ¬((stage.state = StageState.done_failed ∨ stage.state = StageState.done_successful) ∧
      (stage.state = StageState.running ∨ stage.state = StageState.awaiting_approval)) := by
    rintro ⟨-, b | b⟩ <;> (rw [b] at hdone; exact absurd hdone (by decide))
  simp only [if_neg h1, if_neg h2]

theorem addLog_some (stage : Stage) (message : String) (now : Int) :
    addLog (some stage) message now =
      (some { stage with logs := stage.logs ++ logEntry now message },
       some { stage with logs := stage.logs ++ logEntry now message }) := by
  unfold addLog updateStage applyStageUpdates
  simp

/-! ### Stage association-list lemmas -/

theorem assoc_set_get_same (l : List (String × Stage)) (id : String) (st : Stage)
    (h : ((l.find? fun p => p.1 = id)).isSome) :
    (((l.map fun p => if p.1 = id then (p.1, st) else p).find? fun p => p.1 = id).map (·.2)) =
      some st := by
  induction l with
  | nil => simp at h
  | cons a t ih =>
    by_cases ha : a.1 = id
    · simp [List.find?_cons, ha]
    · rw [List.find?_cons] at h
      simp only [ha, decide_eq_true_eq, if_neg ha] at h ⊢
      rw [List.map_cons, List.find?_cons_of_neg _ (by simp [ha])] at *
      exact ih (by simpa [List.find?_cons_of_neg _ (by simp [ha] : ¬(decide (a.1 = id) = true))] using h)

theorem assoc_set_get_ne (l : List (String × Stage)) (id idB : String) (st : Stage)
    (h : idB ≠ id) :
    (((l.map fun p => if p.1 = id then (p.1, st) else p).find? fun p => p.1 = idB).map (·.2)) =
      ((l.find? fun p => p.1 = idB).map (·.2)) := by
  induction l with
  | nil => rfl
  | cons a t ih =>
    have hfst : (if a.1 = id then (a.1, st) else a).1 = a.1 := by
      split <;> rfl
    by_cases hb : a.1 = idB
    · rw [List.map_cons, List.find?_cons_of_pos _ (by rw [hfst]; simp [hb]),
        List.find?_cons_of_pos _ (by simp [hb])]
      have ha : ¬(a.1 = id) := by
        rw [hb]
        exact h
      rw [if_neg ha]
    · rw [List.map_cons, List.find?_cons_of_neg _ (by rw [hfst]; simp [hb]),
        List.find?_cons_of_neg _ (by simp [hb])]
      exact ih

/-! ### System-state lemmas -/

theorem setStageData_history (sys : SystemState) (id : String) (st : Stage) :
    (setStageData sys id st).history = sys.history := rfl

theorem getStageData_set_same (sys : SystemState) (id : String) (st : Stage)
    (h : (getStageData sys id).isSome) :
    getStageData (setStageData sys id st) id = some st := by
  unfold getStageData setStageData at *
  exact assoc_set_get_same sys.stages id st (by
    cases hf : sys.stages.find? fun p => p.1 = id
    · rw [hf] at h
      simp at h
    · rfl)

theorem getStageData_set_ne (sys : SystemState) (id idB : String) (st : Stage)
    (h : idB ≠ id) :
    getStageData (setStageData sys id st) idB = getStageData sys idB := by
  unfold getStageData setStageData
  exact assoc_set_get_ne sys.stages id idB st h

theorem sysUpdateStageState_history (sys : SystemState) (id : String)
    (newState : StageState) (logs : Option String) (now : Int) :
    (sysUpdateStageState sys id newState logs now).history = sys.history := by
  unfold sysUpdateStageState
  cases hd : getStageData sys id
  · rfl
  · rfl

theorem sysUpdateStageState_ne (sys : SystemState) (id idB : String)
    (newState : StageState) (logs : Option String) (now : Int) (h : idB ≠ id) :
    getStageData (sysUpdateStageState sys id newState logs now) idB =
      getStageData sys idB := by
  unfold sysUpdateStageState
  cases hd : getStageData sys id
  · rfl
  · exact getStageData_set_ne sys id idB _ h

theorem sysUpdateStageState_none (sys : SystemState) (id : String)
    (newState : StageState) (logs : Option String) (now : Int)
    (hd : getStageData sys id = none) :
    sysUpdateStageState sys id newState logs now = sys := by
  unfold sysUpdateStageState
  rw [hd]
  rfl

theorem sysUpdateStageState_target (sys : SystemState) (id : String)
    (newState : StageState) (logs : Option String) (now : Int) (st : Stage)
    (hd : getStageData sys id = some st) :
    ∃ u, getStageData (sysUpdateStageState sys id newState logs now) id = some u ∧
      u.state = newState := by
  unfold sysUpdateStageState
  rw [hd]
  obtain ⟨u, hu, hstate⟩ := updateStageState_some st newState logs now
  rw [hu]
  exact ⟨u, getStageData_set_same sys id u (by rw [hd]; rfl), hstate⟩

theorem sysAddLog_history (sys : SystemState) (id : String) (message : String)
    (now : Int) : (sysAddLog sys id message now).history = sys.history := by
  unfold sysAddLog
  cases hd : getStageData sys id
  · rfl
  · rw [addLog_some]
    rfl

theorem sysAddLog_ne (sys : SystemState) (id idB : String) (message : String)
    (now : Int) (h : idB ≠ id) :
    getStageData (sysAddLog sys id message now) idB = getStageData sys idB := by
  unfold sysAddLog
  cases hd : getStageData sys id
  · rfl
  · rw [addLog_some]
    exact getStageData_set_ne sys id idB _ h

/-- `addLog` preserves the existence and state of the target stage. -/
theorem sysAddLog_target (sys : SystemState) (id : String) (message : String)
    (now : Int) (st : Stage) (hd : getStageData sys id = some st) :
    getStageData (sysAddLog sys id message now) id =
      some { st with logs := st.logs ++ logEntry now message } := by
  unfold sysAddLog
  rw [hd, addLog_some]
  exact getStageData_set_same sys id _ (by rw [hd]; rfl)

/-! ### Bulk stage-update lemmas -/

theorem updateStageBadStep_history (releaseId : String) (state : StageState)
    (excludeCompleted : Bool) (now : Int) (acc : SystemState) (p : PlanStage) :
    (updateStageBadStep releaseId state excludeCompleted now acc p).history =
      acc.history := by
  unfold updateStageBadStep
  dsimp only
  cases hd : getStageData acc (mkStageId releaseId p.order)
  · rfl
  · dsimp only
    split
    · exact sysUpdateStageState_history acc _ state none now
    · rfl

theorem updateStageBadStep_ne (releaseId : String) (state : StageState)
    (excludeCompleted : Bool) (now : Int) (acc : SystemState) (p : PlanStage)
    (id : String) (h : mkStageId releaseId p.order ≠ id) :
    getStageData (updateStageBadStep releaseId state excludeCompleted now acc p) id =
      getStageData acc id := by
  unfold updateStageBadStep
  dsimp only
  cases hd : getStageData acc (mkStageId releaseId p.order)
  · rfl
  · dsimp only
    split
    · exact sysUpdateStageState_ne acc _ id state none now (fun hh => h hh.symm)
    · rfl

theorem updateStagesStateBad_history (releaseId : String) (state : StageState)
    (excludeCompleted : Bool) (now : Int) :
    ∀ (stages : List PlanStage) (sys : SystemState),
      (updateStagesStateBad sys releaseId stages state excludeCompleted now).history =
        sys.history := by
  intro stages
  induction stages with
  | nil => intro sys; rfl
  | cons p t ih =>
    intro sys
    unfold updateStagesStateBad at *
    rw [List.foldl_cons, ih, updateStageBadStep_history]

theorem updateStagesStateBad_ne (releaseId : String) (state : StageState)
    (excludeCompleted : Bool) (now : Int) (id : String) :
    ∀ (stages : List PlanStage) (sys : SystemState),
      (∀ p ∈ stages, mkStageId releaseId p.order ≠ id) →
      getStageData (updateStagesStateBad sys releaseId stages state excludeCompleted now) id =
        getStageData sys id := by
  intro stages
  induction stages with
  | nil => intro sys _; rfl
  | cons p t ih =>
    intro sys hall
    unfold updateStagesStateBad at *
    rw [List.foldl_cons, ih _ (fun q hq => hall q (List.mem_cons_of_mem p hq)),
      updateStageBadStep_ne _ _ _ _ _ _ _ (hall p (List.mem_cons_self p t))]

/-- With `excludeCompleted` set, the bulk update never touches a stage whose
state is already terminal. -/
theorem updateStagesStateBad_terminal_skip (releaseId : String) (state : StageState)
    (now : Int) (id : String) (st : Stage) (hdone : st.state.isDone = true) :
    ∀ (stages : List PlanStage) (sys : SystemState),
      getStageData sys id = some st →
      getStageData (updateStagesStateBad sys releaseId stages state true now) id =
        some st := by
  intro stages
  induction stages with
  | nil => intro sys hd; exact hd
  | cons p t ih =>
    intro sys hd
    unfold updateStagesStateBad at *
    rw [List.foldl_cons]
    refine ih _ ?_
    by_cases hp : mkStageId releaseId p.order = id
    · unfold updateStageBadStep
      dsimp only
      rw [hp, hd]
      dsimp only
      rw [if_neg (by simp [hdone])]
      exact hd
    · rw [updateStageBadStep_ne _ _ _ _ _ _ _ hp]
      exact hd

/-- With `excludeCompleted` set and a terminal target state, a stage that is
addressed by some plan stage in the list and is either already at the target
state or not yet terminal ends up at the target state. -/
theorem updateStagesStateBad_cascade (releaseId : String) (state : StageState)
    (now : Int) (id : String) :
    ∀ (stages : List PlanStage) (sys : SystemState) (st : Stage),
      getStageData sys id = some st →
      (st.state = state ∨
        (st.state.isDone = false ∧ ∃ p ∈ stages, mkStageId releaseId p.order = id)) →
      ∃ u, getStageData (updateStagesStateBad sys releaseId stages state true now) id =
        some u ∧ u.state = state := by
  intro stages
  induction stages with
  | nil =>
    intro sys st hd hcase
    rcases hcase with hcase | ⟨-, ⟨p, hp, -⟩⟩
    · exact ⟨st, hd, hcase⟩
    · simp at hp
  | cons p t ih =>
    intro sys st hd hcase
    unfold updateStagesStateBad at *
    rw [List.foldl_cons]
    by_cases hp : mkStageId releaseId p.order = id
    · -- this iteration addresses the stage `id`
      by_cases hdone : st.state.isDone = true
      · -- already terminal: it is skipped, and by the invariant its state is
        -- already the target state
        have hskip : updateStageBadStep releaseId state true now sys p = sys := by
          unfold updateStageBadStep
          dsimp only
          rw [hp, hd]
          dsimp only
          rw [if_neg (by simp [hdone])]
        rw [hskip]
        rcases hcase with hcase | ⟨hnd, -⟩
        · exact ih _ _ hd (Or.inl hcase)
        · rw [hdone] at hnd
          cases hnd
      · -- not yet terminal: it is set to the target state now
        have hstep : updateStageBadStep releaseId state true now sys p =
            sysUpdateStageState sys id state none now := by
          unfold updateStageBadStep
          dsimp only
          rw [hp, hd]
          dsimp only
          rw [if_pos (by simp [hdone])]
        rw [hstep]
        obtain ⟨u, hu, hus⟩ := sysUpdateStageState_target sys id state none now st hd
        exact ih _ _ hu (Or.inl hus)
    · -- this iteration addresses a different stage
      have hpre : getStageData (updateStageBadStep releaseId state true now sys p) id =
          some st := by
        rw [updateStageBadStep_ne _ _ _ _ _ _ _ hp]
        exact hd
      rcases hcase with hcase | ⟨hnd, ⟨q, hq, hqid⟩⟩
      · exact ih _ _ hpre (Or.inl hcase)
      · rcases List.mem_cons.1 hq with rfl | hq2
        · exact absurd hqid hp
        · exact ih _ _ hpre (Or.inr ⟨hnd, q, hq2, hqid⟩)

/-! ## Claim C3: transitions on already-terminal records -/

/-- C3 counterexample.  A release in the terminal state `done_successful`
transitioned to `running` by `updateReleaseState`, and a stage in the
terminal state `done_failed` transitioned to `running` by `updateStageState`:
both calls change the stored state, so a subsequent transition call on a
terminal record is not a no-op. -/
theorem terminal_transition_changes_state :
    (sampleRelease "aaaa1111" .done_successful).state.isDone = true ∧
    ((updateReleaseState [sampleRelease "aaaa1111" .done_successful] "aaaa1111"
        .running 5000).2.map (·.state)) = [.running] ∧
    (sampleStage "aaaa1111" 1 .done_failed).state.isDone = true ∧
    ((updateStageState (some (sampleStage "aaaa1111" 1 .done_failed)) .running
        none 5000).2.map (·.state)) = some .running := by
  refine ⟨rfl, ?_, rfl, rfl⟩
  rfl

/-- C3 amended.  `updateStageState` and `updateReleaseState` apply whatever
state is requested - they do not guard terminal records.  What does hold: a
transition call that re-applies the state a terminal stage or release already
has leaves the stored record unchanged, and the bulk helper
`updateStagesStateBad` (the only caller that sweeps over many stages) skips
already-terminal stages unless the caller clears `excludeCompleted` for
forced cleanup. -/
theorem terminal_reapplication_is_noop :
    (∀ (stage : Stage) (now : Int), stage.state.isDone = true →
      updateStageState (some stage) stage.state none now = (some stage, some stage)) ∧
    (∀ (history : List Release) (id : String) (now : Int) (r : Release),
      getRelease history id = some r → r.state.isDone = true →
      updateReleaseState history id r.state now = (true, history)) ∧
    (∀ (releaseId : String) (state : StageState) (now : Int) (id : String)
        (st : Stage) (stages : List PlanStage) (sys : SystemState),
      st.state.isDone = true → getStageData sys id = some st →
      getStageData (updateStagesStateBad sys releaseId stages state true now) id =
        some st) :=
  ⟨fun stage now h => updateStageState_self_terminal stage now h,
   fun history id now r hf _ => updateReleaseState_self history id now r hf,
   fun releaseId state now id st stages sys hdone hd =>
     updateStagesStateBad_terminal_skip releaseId state now id st hdone stages sys hd⟩

/-- Witness for C3's amended theorem at concrete terminal records. -/
theorem terminal_reapplication_is_noop_witness :
    ((sampleStage "aaaa1111" 1 .done_failed).state.isDone = true ∧
      updateStageState (some (sampleStage "aaaa1111" 1 .done_failed))
          (sampleStage "aaaa1111" 1 .done_failed).state none 9 =
        (some (sampleStage "aaaa1111" 1 .done_failed),
         some (sampleStage "aaaa1111" 1 .done_failed))) ∧
    (getRelease [sampleRelease "aaaa1111" .done_failed_slo] "aaaa1111" =
        some (sampleRelease "aaaa1111" .done_failed_slo) ∧
      (sampleRelease "aaaa1111" .done_failed_slo).state.isDone = true ∧
      updateReleaseState [sampleRelease "aaaa1111" .done_failed_slo] "aaaa1111"
          (sampleRelease "aaaa1111" .done_failed_slo).state 9 =
        (true, [sampleRelease "aaaa1111" .done_failed_slo])) :=
  ⟨⟨rfl, terminal_reapplication_is_noop.1 (sampleStage "aaaa1111" 1 .done_failed) 9 rfl⟩,
   ⟨rfl, rfl,
    terminal_reapplication_is_noop.2.1 [sampleRelease "aaaa1111" .done_failed_slo]
      "aaaa1111" 9 (sampleRelease "aaaa1111" .done_failed_slo) rfl rfl⟩⟩

/-! ## Claim C8: removing a release -/

/-- C8 counterexample.  `removeRelease` succeeds on a release in the terminal
state `done_successful` - not `not_started` - and removes it from the
ledger. -/
theorem removeRelease_ignores_state :
    (sampleRelease "bbbb2222" .done_successful).state ≠ .not_started ∧
    removeRelease [sampleRelease "bbbb2222" .done_successful] "bbbb2222" =
      (true, []) := by
  refine ⟨by decide, ?_⟩
  rfl

/-- `removeRelease` characterized: the resulting ledger is the id-filtered
ledger, and the call reports success exactly when an entry with the id
existed. -/
theorem removeRelease_char (history : List Release) (id : String) :
    (removeRelease history id).2 = (history.filter fun r => r.id ≠ id) ∧
    ((removeRelease history id).1 = true ↔ ∃ r ∈ history, r.id = id) := by
  unfold removeRelease
  by_cases hc : (history.filter fun r => r.id ≠ id).length < history.length
  · rw [if_pos hc]
    refine ⟨rfl, ?_⟩
    simp only [true_iff]
    obtain ⟨x, hx, hnx⟩ := List.length_filter_lt_length_iff_exists.1 hc
    exact ⟨x, hx, by simpa using hnx⟩
  · rw [if_neg hc]
    have hall : ∀ r ∈ history, r.id ≠ id := by
      have hlen : (history.filter fun r => r.id ≠ id).length = history.length := by
        have := List.length_filter_le (fun r => decide (r.id ≠ id)) history
        omega
      intro r hr
      have := List.filter_length_eq_length.1 hlen r hr
      simpa using this
    refine ⟨(List.filter_eq_self.2 (fun r hr => by simpa using hall r hr)).symm, ?_⟩
    constructor
    · intro h
      simp at h
    · rintro ⟨r, hr, hid⟩
      exact absurd hid (hall r hr)

/-- C8 amended.  The ledger-level `removeRelease(id)` removes every entry
with the given id regardless of its state, succeeding exactly when such an
entry exists.  The `not_started` restriction lives one layer up, in
`DELETE /api/release/active`: that endpoint fails (leaving the ledger
unchanged) when there is no active release or when the active release is
`running`, and removes the active release only while it is still
`not_started`. -/
theorem removeRelease_and_delete_endpoint (history : List Release) (id : String) :
    ((removeRelease history id).2 = (history.filter fun r => r.id ≠ id) ∧
      ((removeRelease history id).1 = true ↔ ∃ r ∈ history, r.id = id)) ∧
    (getActiveRelease history = none →
      deleteActiveReleaseEndpoint history = (404, history)) ∧
    (∀ a, getActiveRelease history = some a → a.state = .running →
      deleteActiveReleaseEndpoint history = (409, history)) ∧
    (∀ a, getActiveRelease history = some a → a.state = .not_started →
      deleteActiveReleaseEndpoint history =
        (200, history.filter fun r => r.id ≠ a.id)) := by
  refine ⟨removeRelease_char history id, ?_, ?_, ?_⟩
  · intro hnone
    unfold deleteActiveReleaseEndpoint
    rw [hnone]
  · intro a ha hrun
    simp [deleteActiveReleaseEndpoint, ha, hrun]
  · intro a ha hns
    obtain ⟨hsnd, hfst⟩ := removeRelease_char history a.id
    have hmem : a ∈ history := List.mem_of_find?_eq_some ha
    have htrue : (removeRelease history a.id).1 = true :=
      hfst.2 ⟨a, hmem, rfl⟩
    have hpair : removeRelease history a.id =
        (true, history.filter fun r => r.id ≠ a.id) := Prod.ext htrue hsnd
    simp [deleteActiveReleaseEndpoint, ha, hns, hpair]

/-- Witness for C8's amended theorem: deleting the active release while it is
`not_started` removes exactly that release. -/
theorem removeRelease_and_delete_endpoint_witness :
    (getActiveRelease [sampleRelease "cccc3333" .not_started] =
        some (sampleRelease "cccc3333" .not_started) ∧
      (sampleRelease "cccc3333" .not_started).state = .not_started) ∧
    deleteActiveReleaseEndpoint [sampleRelease "cccc3333" .not_started] =
      (200, [sampleRelease "cccc3333" .not_started].filter fun r =>
        r.id ≠ (sampleRelease "cccc3333" .not_started).id) :=
  ⟨⟨rfl, rfl⟩,
   (removeRelease_and_delete_endpoint [sampleRelease "cccc3333" .not_started]
      "cccc3333").2.2.2 (sampleRelease "cccc3333" .not_started) rfl rfl⟩

/-! ## Claim C4: the one-active-release guard on creation -/

theorem isActive_iff (s : ReleaseState) :
    s.isActive = true ↔ (s = .not_started ∨ s = .running) := by
  cases s <;> simp [ReleaseState.isActive]

/-- C4.  While the ledger holds a release in `not_started` or `running`, the
create endpoint answers 409 (Conflict) and leaves the ledger untouched; once
no active release remains, creation succeeds with a fresh `not_started`
release at the head of the ledger, and the resulting ledger has exactly one
active entry. -/
theorem createRelease_conflict_and_unique_active (history : List Release)
    (plan : Plan) (releaseId oldVersion newVersion : String) (now : Int) :
    (hasActiveRelease history = true →
      createReleaseEndpoint history plan releaseId oldVersion newVersion now =
        (409, none, history)) ∧
    (hasActiveRelease history = false →
      createReleaseEndpoint history plan releaseId oldVersion newVersion now =
        (200, some (mkNewRelease plan releaseId oldVersion newVersion now),
          (mkNewRelease plan releaseId oldVersion newVersion now :: history).take 100) ∧
      ((mkNewRelease plan releaseId oldVersion newVersion now :: history).take 100).countP
          (fun r => r.state.isActive) = 1) := by
  constructor
  · intro h
    unfold createReleaseEndpoint
    rw [if_pos h]
  · intro h
    have hnone : ∀ r ∈ history, ¬(r.state.isActive = true) := by
      have hfn : (history.find? fun r =>
          decide (r.state = ReleaseState.not_started ∨ r.state = ReleaseState.running)) =
            none := by
        unfold hasActiveRelease getActiveRelease at h
        cases hf : history.find? fun r =>
            decide (r.state = ReleaseState.not_started ∨ r.state = ReleaseState.running)
        · rfl
        · rw [hf] at h
          simp at h
      intro r hr hact
      have hnot := List.find?_eq_none.1 hfn r hr
      exact hnot (by simpa using (isActive_iff r.state).1 hact)
    constructor
    · unfold createReleaseEndpoint
      rw [if_neg (by rw [h]; simp)]
      dsimp only
      rw [createRelease_eq_take]
    · rw [List.take_succ_cons, List.countP_cons]
      have hz : (history.take 99).countP (fun r => r.state.isActive) = 0 :=
        List.countP_eq_zero.2 fun a ha => hnone a (List.take_subset 99 history ha)
      rw [hz]
      simp [mkNewRelease, ReleaseState.isActive]

/-- Witness for C4: creation conflicts against a ledger with a running
release, and succeeds on the empty ledger leaving one active entry. -/
theorem createRelease_conflict_and_unique_active_witness :
    (hasActiveRelease [sampleRelease "aaaa1111" .running] = true ∧
      createReleaseEndpoint [sampleRelease "aaaa1111" .running] samplePlan
          "dddd4444" "v-old" "v-new" 3 =
        (409, none, [sampleRelease "aaaa1111" .running])) ∧
    (hasActiveRelease ([] : List Release) = false ∧
      createReleaseEndpoint [] samplePlan "dddd4444" "v-old" "v-new" 3 =
        (200, some (mkNewRelease samplePlan "dddd4444" "v-old" "v-new" 3),
          (mkNewRelease samplePlan "dddd4444" "v-old" "v-new" 3 :: ([] : List Release)).take 100) ∧
      ((mkNewRelease samplePlan "dddd4444" "v-old" "v-new" 3 :: ([] : List Release)).take 100).countP
          (fun r => r.state.isActive) = 1) :=
  ⟨⟨rfl, (createRelease_conflict_and_unique_active [sampleRelease "aaaa1111" .running]
      samplePlan "dddd4444" "v-old" "v-new" 3).1 rfl⟩,
   ⟨rfl, (createRelease_conflict_and_unique_active [] samplePlan "dddd4444" "v-old"
      "v-new" 3).2 rfl⟩⟩

/-! ## Claim C7: soak polling interval and round count -/

/-- While the release stays `running` and every round's SLO evaluation
passes, the soak loop completes all its rounds without touching the
state. -/
theorem soakLoop_all_pass (releaseId stageId : String) (stageOrder : Nat)
    (sloConfigs : List SLOConfig) (telemetry : Nat → ObservabilityMetrics)
    (now : Int) (sys : SystemState) (release : Release)
    (hrel : getRelease sys.history releaseId = some release)
    (hrun : release.state = .running)
    (hpass : ∀ i, (evaluateSLOs sloConfigs (telemetry i)).passed = true) :
    ∀ (n idx : Nat),
      soakLoop releaseId stageId stageOrder sloConfigs telemetry now n idx sys =
        (.go, n, sys) := by
  intro n
  induction n with
  | zero => intro idx; rfl
  | succ n ih =>
    intro idx
    unfold soakLoop
    rw [hrel]
    dsimp only
    rw [if_neg (by rw [hrun]; simp)]
    by_cases hlen : sloConfigs.length > 0
    · rw [if_pos hlen]
      rw [hpass idx]
      rw [if_neg (by simp)]
      rw [ih (idx + 1)]
    · rw [if_neg hlen]
      rw [ih (idx + 1)]

/-- C7.  For a running release with `polling_fraction` in (0, 1] and a stage
with positive `soak_time`, the soak uses the polling interval
`max(1, floor(soak_time * polling_fraction))` and - when every round's SLO
evaluation passes - executes exactly `floor(soak_time / interval)` polling
rounds (the remainder shorter than one interval is never observed), leaving
the state untouched. -/
theorem processStageSoak_interval_and_rounds (sys : SystemState)
    (releaseId : String) (stageRef : StageRef) (stagePlan : PlanStage)
    (telemetry : Nat → ObservabilityMetrics) (now : Int) (release : Release)
    (hrel : getRelease sys.history releaseId = some release)
    (hrun : release.state = .running)
    (hf0 : 0 < release.plan_record.polling_fraction)
    (_hf1 : release.plan_record.polling_fraction ≤ 1)
    (_hsoak : 0 < stagePlan.soak_time)
    (hpass : ∀ i, (evaluateSLOs (parseSLOsFromPlan release.plan_record.slos)
        (telemetry i)).passed = true) :
    processStageSoak sys releaseId stageRef stagePlan telemetry now =
      (.go,
        stagePlan.soak_time /
          pollingInterval stagePlan.soak_time release.plan_record.polling_fraction,
        sys) ∧
    pollingInterval stagePlan.soak_time release.plan_record.polling_fraction =
      max 1 (Int.toNat ⌊(stagePlan.soak_time : ℚ) * release.plan_record.polling_fraction⌋) := by
  have hfz : effPollingFraction (some release) = release.plan_record.polling_fraction := by
    unfold effPollingFraction
    dsimp only
    rw [if_neg (Ne.symm (ne_of_lt hf0))]
  constructor
  · unfold processStageSoak
    rw [hrel]
    dsimp only
    rw [hfz]
    exact soakLoop_all_pass releaseId stageRef.id stageRef.order _ telemetry now sys
      release hrel hrun hpass _ 0
  · exact pollingInterval_eq_floor stagePlan.soak_time release.plan_record.polling_fraction

/-- Witness for C7: the sample running system, soak 60 s at fraction 1/2,
all telemetry at 80 ms against a 100 ms p999 ceiling: interval 30 s, exactly
2 polling rounds. -/
theorem processStageSoak_interval_and_rounds_witness :
    (getRelease sampleSystem.history "aaaa1111" =
      some (sampleRelease "aaaa1111" .running)) ∧
    (∀ i : Nat, (evaluateSLOs
        (parseSLOsFromPlan (sampleRelease "aaaa1111" .running).plan_record.slos)
        ((fun _ => flatMetrics 80) i)).passed = true) ∧
    processStageSoak sampleSystem "aaaa1111" { id := mkStageId "aaaa1111" 1, order := 1 }
        { order := 1, description := "", target_percent := 10, soak_time := 60,
          auto_progress := false }
        (fun _ => flatMetrics 80) 0 =
      (.go,
        60 / pollingInterval 60 (sampleRelease "aaaa1111" .running).plan_record.polling_fraction,
        sampleSystem) :=
  ⟨rfl,
   fun _ => (by decide :
     (evaluateSLOs (parseSLOsFromPlan
        (sampleRelease "aaaa1111" ReleaseState.running).plan_record.slos)
        (flatMetrics 80)).passed = true),
   (processStageSoak_interval_and_rounds sampleSystem "aaaa1111"
      { id := mkStageId "aaaa1111" 1, order := 1 }
      { order := 1, description := "", target_percent := 10, soak_time := 60,
        auto_progress := false }
      (fun _ => flatMetrics 80) 0 (sampleRelease "aaaa1111" .running)
      rfl rfl (by decide) (by decide) (by decide)
      (fun _ => (by decide :
        (evaluateSLOs (parseSLOsFromPlan
           (sampleRelease "aaaa1111" ReleaseState.running).plan_record.slos)
           (flatMetrics 80)).passed = true))).1⟩

/-! ## Claim C1: an SLO violation aborts the release -/

theorem getStageData_history_update (sys : SystemState) (h : List Release)
    (id : String) : getStageData { sys with history := h } id = getStageData sys id := rfl

/-- What `handleSLOViolation` does to the persisted state: the current stage
is stored as `done_failed`, every existing not-yet-terminal stage of strictly
greater order is stored as `done_cancelled`, and the release is stored as
`done_failed_slo`. -/
theorem handleSLOViolation_spec (sys : SystemState)
    (releaseId currentStageId : String) (currentStageOrder : Nat) (now : Int)
    (release : Release)
    (hrel : getRelease sys.history releaseId = some release)
    (hsep : ∀ p ∈ release.plan_record.stages, p.order > currentStageOrder →
      mkStageId releaseId p.order ≠ currentStageId) :
    (∀ st, getStageData sys currentStageId = some st →
      ∃ u, getStageData
          (handleSLOViolation sys releaseId currentStageOrder currentStageId now)
          currentStageId = some u ∧ u.state = .done_failed) ∧
    (∀ p ∈ release.plan_record.stages, p.order > currentStageOrder →
      ∀ st, getStageData sys (mkStageId releaseId p.order) = some st →
        st.state.isDone = false →
        ∃ u, getStageData
            (handleSLOViolation sys releaseId currentStageOrder currentStageId now)
            (mkStageId releaseId p.order) = some u ∧ u.state = .done_cancelled) ∧
    (∃ r2, getRelease
        (handleSLOViolation sys releaseId currentStageOrder currentStageId now).history
        releaseId = some r2 ∧ r2.state = .done_failed_slo) := by
  unfold handleSLOViolation
  rw [hrel]
  dsimp only
  have hremaining : ∀ p ∈ (release.plan_record.stages.filter
      fun s => s.order > currentStageOrder), mkStageId releaseId p.order ≠ currentStageId := by
    intro p hp
    obtain ⟨hmem, hord⟩ := List.mem_filter.1 hp
    exact hsep p hmem (by simpa using hord)
  refine ⟨?_, ?_, ?_⟩
  · intro st hd
    obtain ⟨u, hu, hus⟩ :=
      sysUpdateStageState_target sys currentStageId .done_failed none now st hd
    have h2 := updateStagesStateBad_ne releaseId .done_cancelled true now currentStageId
      (release.plan_record.stages.filter fun s => s.order > currentStageOrder)
      (sysUpdateStageState sys currentStageId .done_failed none now) hremaining
    rw [getStageData_history_update, h2]
    exact ⟨u, hu, hus⟩
  · intro p hp hord st hd hnd
    have hne : mkStageId releaseId p.order ≠ currentStageId := hsep p hp hord
    have hd1 : getStageData
        (sysUpdateStageState sys currentStageId .done_failed none now)
        (mkStageId releaseId p.order) = some st := by
      rw [sysUpdateStageState_ne sys currentStageId (mkStageId releaseId p.order)
        .done_failed none now hne]
      exact hd
    obtain ⟨u, hu, hus⟩ := updateStagesStateBad_cascade releaseId .done_cancelled now
      (mkStageId releaseId p.order)
      (release.plan_record.stages.filter fun s => s.order > currentStageOrder)
      (sysUpdateStageState sys currentStageId .done_failed none now) st hd1
      (Or.inr ⟨hnd, p, List.mem_filter.2 ⟨hp, by simpa using hord⟩, rfl⟩)
    rw [getStageData_history_update]
    exact ⟨u, hu, hus⟩
  · have hh2 : (updateStagesStateBad
        (sysUpdateStageState sys currentStageId .done_failed none now) releaseId
        (release.plan_record.stages.filter fun s => s.order > currentStageOrder)
        .done_cancelled true now).history = sys.history := by
      rw [updateStagesStateBad_history, sysUpdateStageState_history]
    obtain ⟨-, hfound⟩ := updateReleaseState_found
      (updateStagesStateBad
        (sysUpdateStageState sys currentStageId .done_failed none now) releaseId
        (release.plan_record.stages.filter fun s => s.order > currentStageOrder)
        .done_cancelled true now).history
      releaseId .done_failed_slo now release (by rw [hh2]; exact hrel)
    exact ⟨_, hfound, releaseHandleStateTransition_state release release.state
      .done_failed_slo now⟩

theorem pollingInterval_le (soakTime : Nat) (f : ℚ) (hf1 : f ≤ 1)
    (hsoak : 1 ≤ soakTime) : pollingInterval soakTime f ≤ soakTime := by
  rw [pollingInterval_eq_floor]
  refine max_le hsoak ?_
  rw [Int.toNat_le]
  calc ⌊(soakTime : ℚ) * f⌋ ≤ ⌊(soakTime : ℚ)⌋ := by
        refine Int.floor_le_floor ?_
        have hnn : (0 : ℚ) ≤ (soakTime : ℚ) := by positivity
        exact mul_le_of_le_one_right hnn hf1
    _ = soakTime := Int.floor_natCast soakTime

theorem soak_rounds_pos (soakTime : Nat) (f : ℚ) (hf1 : f ≤ 1)
    (hsoak : 0 < soakTime) : 0 < soakTime / pollingInterval soakTime f := by
  have h1 : pollingInterval soakTime f ≤ soakTime := pollingInterval_le _ _ hf1 hsoak
  have h2 : 0 < pollingInterval soakTime f :=
    lt_of_lt_of_le one_pos (le_max_left 1 _)
  exact Nat.div_pos h1 h2

/-- C1.  When a soak round's SLO evaluation fails - here in the very first
round of a running release with a positive soak and a fraction in (0, 1] -
`processStageSoak` returns `exit` (no further stage of the release is
processed), the current stage is stored as `done_failed`, every existing
not-yet-terminal stage of strictly greater order is stored as
`done_cancelled`, and the release is stored as `done_failed_slo`. -/
theorem processStageSoak_violation_aborts (sys : SystemState)
    (releaseId : String) (stageRef : StageRef) (stagePlan : PlanStage)
    (telemetry : Nat → ObservabilityMetrics) (now : Int) (release : Release)
    (hrel : getRelease sys.history releaseId = some release)
    (hrun : release.state = .running)
    (hf0 : 0 < release.plan_record.polling_fraction)
    (hf1 : release.plan_record.polling_fraction ≤ 1)
    (hsoak : 0 < stagePlan.soak_time)
    (hfail : (evaluateSLOs (parseSLOsFromPlan release.plan_record.slos)
        (telemetry 0)).passed = false)
    (hsep : ∀ p ∈ release.plan_record.stages, p.order > stageRef.order →
      mkStageId releaseId p.order ≠ stageRef.id) :
    (processStageSoak sys releaseId stageRef stagePlan telemetry now).1 = .exit ∧
    (∀ st, getStageData sys stageRef.id = some st →
      ∃ u, getStageData
          (processStageSoak sys releaseId stageRef stagePlan telemetry now).2.2
          stageRef.id = some u ∧ u.state = .done_failed) ∧
    (∀ p ∈ release.plan_record.stages, p.order > stageRef.order →
      ∀ st, getStageData sys (mkStageId releaseId p.order) = some st →
        st.state.isDone = false →
        ∃ u, getStageData
            (processStageSoak sys releaseId stageRef stagePlan telemetry now).2.2
            (mkStageId releaseId p.order) = some u ∧ u.state = .done_cancelled) ∧
    (∃ r2, getRelease
        (processStageSoak sys releaseId stageRef stagePlan telemetry now).2.2.history
        releaseId = some r2 ∧ r2.state = .done_failed_slo) := by
  have hfz : effPollingFraction (some release) = release.plan_record.polling_fraction := by
    unfold effPollingFraction
    dsimp only
    rw [if_neg (Ne.symm (ne_of_lt hf0))]
  have hlen : 0 < (parseSLOsFromPlan release.plan_record.slos).length := by
    cases hcfg : parseSLOsFromPlan release.plan_record.slos with
    | nil =>
      rw [hcfg] at hfail
      simp [evaluateSLOs] at hfail
    | cons a t => simp
  have hpos : 0 < stagePlan.soak_time /
      pollingInterval stagePlan.soak_time release.plan_record.polling_fraction :=
    soak_rounds_pos _ _ hf1 hsoak
  obtain ⟨n, hn⟩ : ∃ n, stagePlan.soak_time /
      pollingInterval stagePlan.soak_time release.plan_record.polling_fraction = n + 1 :=
    ⟨stagePlan.soak_time /
      pollingInterval stagePlan.soak_time release.plan_record.polling_fraction - 1,
      by omega⟩
  have hres : processStageSoak sys releaseId stageRef stagePlan telemetry now =
      (.exit, 0, handleSLOViolation
        (sysAddLog sys stageRef.id
          (violationLogMessage (evaluateSLOs
            (parseSLOsFromPlan release.plan_record.slos) (telemetry 0)).violations) now)
        releaseId stageRef.order stageRef.id now) := by
    unfold processStageSoak
    rw [hrel]
    dsimp only
    rw [hfz, hn]
    unfold soakLoop
    rw [hrel]
    dsimp only
    rw [if_neg (by rw [hrun]; simp), if_pos hlen, hfail, if_pos (by simp)]
  have hrelA : getRelease (sysAddLog sys stageRef.id
      (violationLogMessage (evaluateSLOs
        (parseSLOsFromPlan release.plan_record.slos) (telemetry 0)).violations) now).history
      releaseId = some release := by
    rw [sysAddLog_history]
    exact hrel
  obtain ⟨hspec1, hspec2, hspec3⟩ := handleSLOViolation_spec
    (sysAddLog sys stageRef.id
      (violationLogMessage (evaluateSLOs
        (parseSLOsFromPlan release.plan_record.slos) (telemetry 0)).violations) now)
    releaseId stageRef.id stageRef.order now release hrelA hsep
  refine ⟨by rw [hres], ?_, ?_, ?_⟩
  · intro st hd
    rw [hres]
    exact hspec1 _ (sysAddLog_target sys stageRef.id _ now st hd)
  · intro p hp hord st hd hnd
    rw [hres]
    refine hspec2 p hp hord st ?_ hnd
    rw [sysAddLog_ne sys stageRef.id (mkStageId releaseId p.order) _ now
      (hsep p hp hord)]
    exact hd
  · rw [hres]
    exact hspec3

/-- Witness for C1: on the sample running system, first-round telemetry of
150 ms against the 100 ms p999 ceiling aborts the soak with `exit`, fails
stage 1, cancels stage 2 (order 2 > 1, still `queued`), and marks the
release `done_failed_slo`. -/
theorem processStageSoak_violation_aborts_witness :
    ((evaluateSLOs (parseSLOsFromPlan
        (sampleRelease "aaaa1111" ReleaseState.running).plan_record.slos)
        (flatMetrics 150)).passed = false) ∧
    ((processStageSoak sampleSystem "aaaa1111"
        { id := mkStageId "aaaa1111" 1, order := 1 }
        { order := 1, description := "", target_percent := 10, soak_time := 60,
          auto_progress := false } (fun _ => flatMetrics 150) 1000).1 = .exit ∧
    (∀ st, getStageData sampleSystem (mkStageId "aaaa1111" 1) = some st →
      ∃ u, getStageData
          (processStageSoak sampleSystem "aaaa1111"
            { id := mkStageId "aaaa1111" 1, order := 1 }
            { order := 1, description := "", target_percent := 10, soak_time := 60,
              auto_progress := false } (fun _ => flatMetrics 150) 1000).2.2
          (mkStageId "aaaa1111" 1) = some u ∧ u.state = .done_failed) ∧
    (∀ p ∈ (sampleRelease "aaaa1111" ReleaseState.running).plan_record.stages,
      p.order > 1 →
      ∀ st, getStageData sampleSystem (mkStageId "aaaa1111" p.order) = some st →
        st.state.isDone = false →
        ∃ u, getStageData
            (processStageSoak sampleSystem "aaaa1111"
              { id := mkStageId "aaaa1111" 1, order := 1 }
              { order := 1, description := "", target_percent := 10, soak_time := 60,
                auto_progress := false } (fun _ => flatMetrics 150) 1000).2.2
            (mkStageId "aaaa1111" p.order) = some u ∧ u.state = .done_cancelled) ∧
    (∃ r2, getRelease
        (processStageSoak sampleSystem "aaaa1111"
          { id := mkStageId "aaaa1111" 1, order := 1 }
          { order := 1, description := "", target_percent := 10, soak_time := 60,
            auto_progress := false } (fun _ => flatMetrics 150) 1000).2.2.history
        "aaaa1111" = some r2 ∧ r2.state = .done_failed_slo)) :=
  ⟨by decide,
   processStageSoak_violation_aborts sampleSystem "aaaa1111"
     { id := mkStageId "aaaa1111" 1, order := 1 }
     { order := 1, description := "", target_percent := 10, soak_time := 60,
       auto_progress := false }
     (fun _ => flatMetrics 150) 1000 (sampleRelease "aaaa1111" ReleaseState.running)
     rfl rfl (by decide) (by decide) (by decide)
     (by decide)
     (by decide)⟩
